import Mathlib

/-!
Shallow embedding of pygwcoh's datatypes module (src/_datatypes/series.py):
uniformly sampled sequences (Series, TimeSeries) and sorted multi-row
containers (MultiSeries, TimeFreqSpectrum), with their append, slice and
resample operations.

Numeric values are modelled as rationals (the Python code works with numpy
floats; none of the verified properties depends on rounding).  Numpy arrays
of row values are Lean lists; a container's 2-D array is a list of rows.
Python attributes that are None until first use are modelled with Option.
Exceptions are modelled by an error code returned next to the (possibly
mutated) state: when a Python method raises after having assigned some
attributes, the returned state carries exactly those assignments, which is
what the caller's object looks like after the exception propagates.
-/

namespace PyGWCoh

/-- Error kinds raised by the module.  The Python code uses bare
Exception/ValueError/TypeError with distinguishing messages; each distinct
raise site is mapped to one constructor:
shapeError = construction with a buffer of invalid dimensionality,
sizeError = appended row length differs from the container column count,
deltaxError = appended row spacing differs from the container spacing,
typeError = key/argument type rejections,
invalidIndex = ValueError for a non-uniform explicit index array,
indexError = out-of-range numpy indexing,
valueError = other numpy ValueError (degenerate index arrays),
attributeError = access to an attribute that does not exist. -/
inductive PyErr
  | shapeError
  | sizeError
  | deltaxError
  | typeError
  | invalidIndex
  | indexError
  | valueError
  | attributeError
deriving DecidableEq

/-- A numpy array as handed to a constructor: its shape together with the
flat list of entries.  Only the shape takes part in the validation logic
that the claims are about. -/
structure NDArray where
  shape : List ℕ
  data : List ℚ
deriving DecidableEq

/-- The Series class (series.py lines 9-103): a 1-D numeric buffer
value together with its uniform sample spacing deltax.  The diagnostic
info string plays no role in any verified property and is omitted. -/
structure Series where
  value : List ℚ
  deltax : ℚ
deriving DecidableEq

/-- Series.__init__ (lines 10-16): the shape guard
if (len(value.shape) != 1 and value.shape[0] != 1): raise Exception.
Note the conjunction: a buffer whose first dimension is 1 is accepted even
when it is not one-dimensional.  The accepted Series keeps the flat data.
Faithful for every nonempty shape; a 0-d input (shape []) would hit an
IndexError in Python instead and is outside this model. -/
def Series.init (v : NDArray) (deltax : ℚ) : Except PyErr Series :=
  if v.shape.length ≠ 1 ∧ v.shape.headD 0 ≠ 1 then .error .shapeError
  else .ok ⟨v.data, deltax⟩

/-- Series.length (lines 40-42): deltax * len(value). -/
def Series.length (s : Series) : ℚ := s.deltax * s.value.length

/-- The three shapes a __getitem__ / _getslice call can return:
a raw scalar (integer key), a raw numpy array not wrapped back into a
Series (single-element index array), or a wrapped Series. -/
inductive SliceResult
  | scalarV (q : ℚ)
  | rawArr (vs : List ℚ)
  | wrapped (s : Series)
deriving DecidableEq

/-- Positions selected by the Python slice v[st:sp:k] for non-negative
start/stop and positive step. -/
def pySliceIdx (n st sp k : ℕ) : List ℕ :=
  (List.range n).filter (fun i => decide (st ≤ i) && decide (i < sp) && ((i - st) % k == 0))

/-- Series._getslice on a slice object (lines 74-82): the result spacing is
deltax * step when a step is given, deltax otherwise, and the values are the
sliced buffer.  Modelled for non-negative bounds and positive step: a
negative start raises ValueError in the source (line 75-76) and a zero step
is rejected by numpy itself; neither case is exercised by any claim. -/
def Series.getsliceSlice (s : Series) (start stop step : Option ℕ) : Series :=
  let newDeltax := match step with
    | some k => s.deltax * k
    | none => s.deltax
  ⟨(pySliceIdx s.value.length (start.getD 0) (stop.getD s.value.length) (step.getD 1)).map
      (fun i => s.value.getD i 0),
   newDeltax⟩

/-- Helper for npGradient: central differences with the trailing one-sided
difference. -/
def npGradientAux : ℚ → ℚ → List ℚ → List ℚ
  | p, q, [] => [q - p]
  | p, q, r :: t => (r - p) / 2 :: npGradientAux q r t

/-- np.gradient of a 1-D array of length at least 2: one-sided differences
at both ends, central differences inside. -/
def npGradient : List ℚ → List ℚ
  | [] => []
  | [_] => []
  | a :: b :: t => (b - a) :: npGradientAux a b t

/-- Series._getslice on an explicit index array (lines 83-92).  A
single-element index array returns the raw selected sub-array
(self._value[index], a length-1 numpy array that is not wrapped back into
a Series and is not a scalar).  Otherwise the index must be a uniform
arithmetic progression (checked via max/min of np.gradient) and the result
is a Series with spacing deltax * (index[1] - index[0]).  Out-of-range
positions raise numpy's IndexError; the bound check is hoisted in front of
the branches, which only reorders which error fires on inputs that are
bad in two ways at once. -/
def Series.getsliceArr (s : Series) (idx : List ℕ) : Except PyErr SliceResult :=
  if ¬ (∀ i ∈ idx, i < s.value.length) then .error .indexError
  else if idx.length = 1 then .ok (.rawArr (idx.map (fun i => s.value.getD i 0)))
  else if idx.length = 0 then .error .valueError
  else
    let g := npGradient (idx.map (fun i => (i : ℚ)))
    if g.maximum ≠ g.minimum then .error .invalidIndex
    else
      .ok (.wrapped ⟨idx.map (fun i => s.value.getD i 0),
                     s.deltax * ((idx.getD 1 0 : ℚ) - (idx.getD 0 0 : ℚ))⟩)

/-- Outcome of Series.resample: either the very same object (identity, not
a copy) or a freshly constructed Series. -/
inductive ResampleRes
  | same
  | fresh (s : Series)
deriving DecidableEq

/-- Series.resample (lines 98-103), parameterised by the external
resampling collaborator R(buffer, current_rate, target_rate): when the
requested spacing differs, delegate with rates 1/deltax and 1/new_deltax
and wrap the result with the new spacing; otherwise return self. -/
def Series.resample (R : List ℚ → ℚ → ℚ → List ℚ) (s : Series) (newDeltax : ℚ) : ResampleRes :=
  if newDeltax ≠ s.deltax then .fresh ⟨R s.value (1 / s.deltax) (1 / newDeltax), newDeltax⟩
  else .same

/-- The TimeSeries class (lines 106-128): a Series plus an absolute epoch;
constructed with deltax = 1/fs. -/
structure TimeSeries where
  value : List ℚ
  epoch : ℚ
  deltax : ℚ
deriving DecidableEq

/-- TimeSeries.fs (lines 111-113): int(1/deltax).  For the intended states
deltax is the reciprocal of an integer rate, where the int() truncation is
the identity, so it is modelled as exact division. -/
def TimeSeries.fs (t : TimeSeries) : ℚ := 1 / t.deltax

/-- Outcome of TimeSeries.resample: the same object, a fresh TimeSeries, or
an exception escaping the call. -/
inductive TSResampleRes
  | same
  | fresh (t : TimeSeries)
  | raised (e : PyErr)
deriving DecidableEq

/-- TimeSeries.resample (lines 123-128).  When fs_new equals fs it returns
self.  Otherwise the source evaluates
TimeSeries(new, epoch=self.epoch, fs=self.fs, info=self.info)
whose argument self.info names an attribute that no Series/TimeSeries
property defines (the field is _info), so the call raises AttributeError
after invoking the collaborator; no TimeSeries is ever produced.  (Had
info existed, the constructor would still be handed fs=self.fs, the old
rate, rather than fs_new.) -/
def TimeSeries.resample (t : TimeSeries) (fsNew : ℚ) : TSResampleRes :=
  if fsNew ≠ t.fs then .raised .attributeError
  else .same

/-- Runtime type of the key argument y of MultiSeries.append, as far as the
isinstance checks of lines 221-222 can observe it: a Python int, a Python
float, or anything else (a non-scalar). -/
inductive PyKey
  | int (n : ℤ)
  | float (q : ℚ)
  | other
deriving DecidableEq

/-- isinstance(y, np.int). -/
def PyKey.isInt : PyKey → Bool
  | .int _ => true
  | _ => false

/-- isinstance(y, np.float). -/
def PyKey.isFloat : PyKey → Bool
  | .float _ => true
  | _ => false

/-- Numeric value of a scalar key (junk 0 for a non-scalar; every use is
guarded by a scalar check first). -/
def PyKey.toQ : PyKey → ℚ
  | .int n => (n : ℚ)
  | .float q => q
  | .other => 0

/-- State of a MultiSeries object (lines 131-223): the empty flag set by
__init__, the 2-D row buffer, the sorted key array y, and the shared
spacing.  _y = None and _array = np.array([]) of the empty state are both
modelled as [] (no verified property distinguishes None from an empty
array); _deltax = None is Option.none. -/
structure MultiSeries where
  isempty : Bool
  array : List (List ℚ)
  y : List ℚ
  deltax : Option ℚ
deriving DecidableEq

/-- Argument of MultiSeries.append: an already wrapped Series, or a raw
buffer that line 200 wraps as Series(series, self.deltax). -/
inductive MSArg
  | ser (s : Series)
  | raw (v : List ℚ)

/-- np.where(ys - k >= 0)[0][0]: the first index i with k ≤ ys[i], none
when no entry qualifies (where Python would raise IndexError). -/
def findGE (k : ℚ) : List ℚ → Option ℕ
  | [] => none
  | a :: t => if k ≤ a then some 0 else (findGE k t).map (· + 1)

/-- np.insert(l, i, x, axis=0): insert x before position i.  For i ≤
length this is exactly numpy's behaviour; every call site is in-bounds. -/
def insertAt {α : Type} : ℕ → α → List α → List α
  | 0, x, l => x :: l
  | _ + 1, x, [] => [x]
  | n + 1, x, a :: t => a :: insertAt n x t

/-- MultiSeries.append (lines 198-223).  Returns the state of the object
after the call together with the exception it raised, if any.  Non-empty
container: length check, spacing check, then insert-at-end / replace /
insert-in-order on array and y (a non-scalar key fails the comparison
y > self._y[-1] with TypeError before any mutation).  Empty container: the
source first assigns _deltax and _array (lines 219-220) and only then runs
the key type guard
not isinstance(y, np.int) or not isinstance(y, np.float)
(lines 221-222), so when that guard fires the returned state carries the
two assignments already made; line 223 setting _y is only reached when the
guard does not fire.  Note the guard never clears _isempty. -/
def MultiSeries.append (s : MultiSeries) (a : MSArg) (k : PyKey) : MultiSeries × Option PyErr :=
  let v : List ℚ := match a with
    | .ser sv => sv.value
    | .raw v => v
  let dxArg : Option ℚ := match a with
    | .ser sv => some sv.deltax
    | .raw _ => s.deltax
  if s.isempty = false then
    if v.length ≠ (s.array.headD []).length then (s, some .sizeError)
    else if dxArg ≠ s.deltax then (s, some .deltaxError)
    else
      match k with
      | .other => (s, some .typeError)
      | _ =>
        let kq := k.toQ
        if s.y.getLastD 0 < kq then
          ({s with array := insertAt s.array.length v s.array,
                   y := insertAt s.array.length kq s.y}, none)
        else
          match findGE kq s.y with
          | none => (s, some .indexError)
          | some i =>
            if s.y.getD i 0 = kq then ({s with array := s.array.set i v}, none)
            else ({s with array := insertAt i v s.array, y := insertAt i kq s.y}, none)
  else
    let s1 := {s with deltax := dxArg, array := [v]}
    if !k.isInt || !k.isFloat then (s1, some .typeError)
    else ({s1 with y := [k.toQ]}, none)

/-- State of a TimeFreqSpectrum object (lines 227-298): a MultiSeries state
plus the per-row epoch array (kept [] while the attribute is unset). -/
structure TimeFreqSpectrum where
  isempty : Bool
  array : List (List ℚ)
  epoch : List ℚ
  y : List ℚ
  deltax : Option ℚ
deriving DecidableEq

/-- Argument of TimeFreqSpectrum.append (line 258): a TimeSeries (value,
epoch and spacing taken from it) or a raw numpy buffer with the freq key,
an optional explicit epoch, and an optional fs override. -/
inductive TFArg
  | ts (t : TimeSeries) (freq : ℚ)
  | arr (v : List ℚ) (freq : ℚ) (epoch : Option ℚ) (fs : Option ℚ)

/-- Row values an append argument carries. -/
def TFArg.valueOf : TFArg → List ℚ
  | .ts t _ => t.value
  | .arr v _ _ _ => v

/-- Frequency key an append argument carries. -/
def TFArg.freqOf : TFArg → ℚ
  | .ts _ f => f
  | .arr _ f _ _ => f

/-- Epoch an append argument carries (junk 0 for the argument shape that
append rejects with TypeError before using it). -/
def TFArg.epochOf : TFArg → ℚ
  | .ts t _ => t.epoch
  | .arr _ _ e _ => e.getD 0

/-- Body of TimeFreqSpectrum.append (lines 275-298) once value, freq,
epoch and deltax have been extracted from the arguments.  Non-empty
container: length check, spacing check, then the three arrays _array,
_epoch and _y are extended/updated in lockstep — insert at idx = ysize
when freq exceeds the last key, else replace or insert at the first index
with _y[idx] ≥ freq.  Empty container (lines 294-298): the three arrays
are reset to singletons and _deltax is assigned; _isempty is never
assigned anywhere in append. -/
def TimeFreqSpectrum.appendCore (s : TimeFreqSpectrum) (v : List ℚ) (freq ep : ℚ)
    (dx : Option ℚ) : TimeFreqSpectrum × Option PyErr :=
  if s.isempty = false then
    if v.length ≠ (s.array.headD []).length then (s, some .sizeError)
    else if dx ≠ s.deltax then (s, some .deltaxError)
    else if s.y.getLastD 0 < freq then
      ({s with array := insertAt s.array.length v s.array,
               epoch := insertAt s.array.length ep s.epoch,
               y := insertAt s.array.length freq s.y}, none)
    else
      match findGE freq s.y with
      | none => (s, some .indexError)
      | some i =>
        if s.y.getD i 0 = freq then
          ({s with array := s.array.set i v, epoch := s.epoch.set i ep}, none)
        else
          ({s with array := insertAt i v s.array, epoch := insertAt i ep s.epoch,
                   y := insertAt i freq s.y}, none)
  else
    ({s with array := [v], epoch := [ep], y := [freq], deltax := dx}, none)

/-- TimeFreqSpectrum.append (lines 258-298).  Argument dispatch of lines
259-272: a raw buffer without an explicit epoch is a TypeError (before any
state is touched); a raw buffer with an epoch uses deltax = self.deltax
when no fs is given and deltax = fs when one is (the source stores the
rate itself, line 266); a TimeSeries supplies value, epoch and deltax. -/
def TimeFreqSpectrum.append (s : TimeFreqSpectrum) (a : TFArg) :
    TimeFreqSpectrum × Option PyErr :=
  match a with
  | .arr _ _ none _ => (s, some .typeError)
  | .arr v freq (some e) fsOpt =>
      s.appendCore v freq e (match fsOpt with | none => s.deltax | some f => some f)
  | .ts t freq => s.appendCore t.value freq t.epoch (some t.deltax)

/-- CreateEmptySpectrum (lines 302-308): TimeFreqSpectrum(np.array([]),
None, 1, None) — the MultiSeries constructor takes the empty branch,
leaving _isempty = True, _deltax = None, _y = None, and the
TimeFreqSpectrum constructor leaves _epoch unset. -/
def CreateEmptySpectrum : TimeFreqSpectrum :=
  ⟨true, [], [], [], none⟩

/-- Apply a sequence of append calls to a spectrum, keeping the state each
call leaves behind (raised exceptions leave the matching state). -/
def tfFold (s : TimeFreqSpectrum) (args : List TFArg) : TimeFreqSpectrum :=
  args.foldl (fun s a => (s.append a).1) s

/-- TimeFreqSpectrum.__iter__ (lines 254-256): for i in range(ysize) it
would yield (frequencies[i], TimeSeries(_array[i], _epoch[i], fs)), but
the TimeSeries constructor argument info = self._info names an attribute
that is never assigned anywhere in the MultiSeries hierarchy (MultiSeries
derives from object, not Series, and neither __init__ nor append ever
sets _info), so requesting the first element of a non-empty spectrum
raises AttributeError before any pair is produced.  Only the empty
iteration (ysize = 0, the loop body never runs) completes, yielding
nothing. -/
def TimeFreqSpectrum.iterRows (s : TimeFreqSpectrum) : Except PyErr (List (ℚ × TimeSeries)) :=
  if s.array.length = 0 then .ok []
  else .error .attributeError

/-- The three-way lockstep invariant of a TimeFreqSpectrum state: rows,
keys and epochs have equal lengths, the keys are strictly ascending, and a
container past its empty flag has at least one key. -/
def TFInv (s : TimeFreqSpectrum) : Prop :=
  s.array.length = s.y.length ∧ s.epoch.length = s.y.length ∧
    s.y.Chain' (· < ·) ∧ (s.isempty = false → s.y ≠ [])

instance {ε α : Type} [DecidableEq ε] [DecidableEq α] : DecidableEq (Except ε α) := fun x y =>
  match x, y with
  | .ok a, .ok b =>
      if h : a = b then isTrue (by rw [h]) else isFalse (by intro hc; cases hc; exact h rfl)
  | .error e, .error f =>
      if h : e = f then isTrue (by rw [h]) else isFalse (by intro hc; cases hc; exact h rfl)
  | .ok _, .error _ => isFalse (by intro hc; cases hc)
  | .error _, .ok _ => isFalse (by intro hc; cases hc)

/-- The state MultiSeries(np.array([]), deltax, y) leaves behind for any
deltax and y (lines 134-140, 155-157): empty buffer, _isempty = True,
_deltax = _y = None. -/
def msEmptyDemo : MultiSeries := ⟨true, [], [], none⟩

/-- First append of the spec's concrete spectrum scenario: a 5-sample
TimeSeries at rate 10 with epoch 0, keyed by frequency 20. -/
def c1row1 : TFArg := .ts ⟨[1, 1, 1, 1, 1], 0, 1/10⟩ 20

/-- Second append of the spec's concrete spectrum scenario: a 5-sample
TimeSeries at rate 10 with epoch 1, keyed by frequency 10. -/
def c1row2 : TFArg := .ts ⟨[2, 2, 2, 2, 2], 1, 1/10⟩ 10

/-- A TimeFreqSpectrum state as constructed non-empty: two 2-sample rows
at frequencies 10 and 20, epochs broadcast to 0, rate 1. -/
def c4start : TimeFreqSpectrum := ⟨false, [[1, 1], [2, 2]], [0, 0], [10, 20], some 1⟩

/-- An append sequence exercising insert-in-middle, replace-on-collision
and append-at-end. -/
def c4demo : List TFArg := [.ts ⟨[9, 9], 5, 1⟩ 15, .ts ⟨[8, 8], 6, 1⟩ 20, .ts ⟨[7, 7], 7, 1⟩ 25]

/-! ### Helper lemmas about findGE, insertAt and the append operations -/

lemma findGE_lt_length {k : ℚ} :
    ∀ {ys : List ℚ} {i : ℕ}, findGE k ys = some i → i < ys.length := by
  intro ys
  induction ys with
  | nil => intro i h; simp [findGE] at h
  | cons a t ih =>
    intro i h
    simp only [findGE] at h
    by_cases hka : k ≤ a
    · rw [if_pos hka] at h
      cases h
      simp
    · rw [if_neg hka] at h
      cases ht : findGE k t with
      | none => rw [ht] at h; simp at h
      | some j =>
        rw [ht] at h
        simp only [Option.map_some'] at h
        cases h
        have := ih ht
        simp only [List.length_cons]
        omega

lemma length_insertAt {α : Type} (x : α) :
    ∀ (i : ℕ) (l : List α), i ≤ l.length → (insertAt i x l).length = l.length + 1 := by
  intro i
  induction i with
  | zero => intro l _; rfl
  | succ n ih =>
    intro l hl
    cases l with
    | nil => simp at hl
    | cons a t =>
      simp only [insertAt, List.length_cons]
      rw [ih t (by simpa using hl)]

lemma insertAt_ne_nil {α : Type} (x : α) :
    ∀ (i : ℕ) (l : List α), insertAt i x l ≠ [] := by
  intro i l
  cases i with
  | zero => simp [insertAt]
  | succ n => cases l <;> simp [insertAt]

lemma insertAt_length_self {α : Type} (x : α) :
    ∀ (l : List α), insertAt l.length x l = l ++ [x] := by
  intro l
  induction l with
  | nil => rfl
  | cons a t ih => simpa [insertAt] using ih

lemma chain'_insertAt_findGE :
    ∀ (ys : List ℚ) (k : ℚ) (i : ℕ), ys.Chain' (· < ·) → findGE k ys = some i →
      ys.getD i 0 ≠ k → (insertAt i k ys).Chain' (· < ·) := by
  intro ys
  induction ys with
  | nil => intro k i _ hf; simp [findGE] at hf
  | cons a t ih =>
    intro k i hc hf hne
    simp only [findGE] at hf
    by_cases hka : k ≤ a
    · rw [if_pos hka] at hf
      cases hf
      have hne' : a ≠ k := by simpa using hne
      have hak : k < a := lt_of_le_of_ne hka (Ne.symm hne')
      show List.Chain' (· < ·) (k :: a :: t)
      refine List.chain'_cons'.mpr ⟨?_, hc⟩
      intro b hb
      have hb' : a = b := by simpa using hb
      rw [← hb']; exact hak
    · rw [if_neg hka] at hf
      cases ht : findGE k t with
      | none => rw [ht] at hf; simp at hf
      | some j =>
        rw [ht] at hf
        simp only [Option.map_some'] at hf
        cases hf
        have hak : a < k := lt_of_not_le hka
        have htc : t.Chain' (· < ·) := hc.tail
        have hrec := ih k j htc ht (by simpa using hne)
        show List.Chain' (· < ·) (a :: insertAt j k t)
        refine List.chain'_cons'.mpr ⟨?_, hrec⟩
        intro b hb
        cases t with
        | nil => simp [findGE] at ht
        | cons c t' =>
          cases j with
          | zero =>
            have hb' : k = b := by simpa [insertAt] using hb
            rw [← hb']; exact hak
          | succ j' =>
            have hb' : c = b := by simpa [insertAt] using hb
            have hac : a < c := (List.chain'_cons.mp hc).1
            rw [← hb']; exact hac

lemma appendCore_isempty (s : TimeFreqSpectrum) (v : List ℚ) (freq ep : ℚ) (dx : Option ℚ) :
    ((s.appendCore v freq ep dx).1).isempty = s.isempty := by
  unfold TimeFreqSpectrum.appendCore
  split
  · split
    · rfl
    · split
      · rfl
      · split
        · rfl
        · split
          · rfl
          · split <;> rfl
  · rfl

lemma append_isempty (s : TimeFreqSpectrum) (a : TFArg) :
    ((s.append a).1).isempty = s.isempty := by
  cases a with
  | ts t freq => exact appendCore_isempty ..
  | arr v freq e fsOpt =>
    cases e with
    | none => rfl
    | some e0 => exact appendCore_isempty ..

lemma appendCore_inv {s : TimeFreqSpectrum} (v : List ℚ) (freq ep : ℚ) (dx : Option ℚ)
    (h : TFInv s) : TFInv (s.appendCore v freq ep dx).1 := by
  obtain ⟨hlen1, hlen2, hchain, hnil⟩ := h
  unfold TimeFreqSpectrum.appendCore
  by_cases he : s.isempty = false
  · rw [if_pos he]
    by_cases h1 : v.length ≠ (s.array.headD []).length
    · rw [if_pos h1]; exact ⟨hlen1, hlen2, hchain, hnil⟩
    · rw [if_neg h1]
      by_cases h2 : dx ≠ s.deltax
      · rw [if_pos h2]; exact ⟨hlen1, hlen2, hchain, hnil⟩
      · rw [if_neg h2]
        have hynil : s.y ≠ [] := hnil he
        by_cases h3 : s.y.getLastD 0 < freq
        · rw [if_pos h3]
          have hyins : insertAt s.array.length freq s.y = s.y ++ [freq] := by
            rw [hlen1]; exact insertAt_length_self ..
          refine ⟨?_, ?_, ?_, ?_⟩
          · rw [hyins, length_insertAt v s.array.length s.array le_rfl]
            simp [hlen1]
          · rw [hyins, length_insertAt ep s.array.length s.epoch (by omega)]
            simp [hlen2]
          · simp only [hyins]
            refine List.chain'_append.mpr ⟨hchain, List.chain'_singleton freq, ?_⟩
            intro x hx b hb
            have hb' : freq = b := by simpa using hb
            have hx' : s.y.getLastD 0 = x := by
              rw [List.getLastD_eq_getLast?, hx]; rfl
            rw [← hb', ← hx']; exact h3
          · intro _; simp [hyins]
        · rw [if_neg h3]
          cases hfg : findGE freq s.y with
          | none => simp only [hfg]; exact ⟨hlen1, hlen2, hchain, hnil⟩
          | some i =>
            have hilt : i < s.y.length := findGE_lt_length hfg
            simp only [hfg]
            by_cases h4 : s.y.getD i 0 = freq
            · rw [if_pos h4]
              exact ⟨by simpa using hlen1, by simpa using hlen2, hchain, hnil⟩
            · rw [if_neg h4]
              refine ⟨?_, ?_, ?_, ?_⟩
              · rw [length_insertAt v i s.array (by omega),
                  length_insertAt freq i s.y (by omega), hlen1]
              · rw [length_insertAt ep i s.epoch (by omega),
                  length_insertAt freq i s.y (by omega), hlen2]
              · exact chain'_insertAt_findGE s.y freq i hchain hfg h4
              · intro _; exact insertAt_ne_nil freq i s.y
  · rw [if_neg he]
    exact ⟨rfl, rfl, List.chain'_singleton freq, fun _ => by simp⟩

lemma append_inv {s : TimeFreqSpectrum} (a : TFArg) (h : TFInv s) : TFInv (s.append a).1 := by
  cases a with
  | ts t freq => exact appendCore_inv _ _ _ _ h
  | arr v freq e fsOpt =>
    cases e with
    | none => exact h
    | some e0 => exact appendCore_inv _ _ _ _ h

lemma tfFold_inv {s : TimeFreqSpectrum} (args : List TFArg) (h : TFInv s) :
    TFInv (tfFold s args) := by
  induction args generalizing s with
  | nil => exact h
  | cons a t ih => exact ih (append_inv a h)

lemma appendCore_of_empty {s : TimeFreqSpectrum} (h : s.isempty = true)
    (v : List ℚ) (freq ep : ℚ) (dx : Option ℚ) :
    s.appendCore v freq ep dx =
      ({s with array := [v], epoch := [ep], y := [freq], deltax := dx}, none) := by
  unfold TimeFreqSpectrum.appendCore
  rw [if_neg (by simp [h])]

lemma tfFold_isempty (l : List TFArg) :
    ∀ (s : TimeFreqSpectrum), (tfFold s l).isempty = s.isempty := by
  induction l with
  | nil => intro s; rfl
  | cons b t ih =>
    intro s
    rw [tfFold, List.foldl_cons, ← tfFold, ih, append_isempty]

/-! ### Claim theorems -/

/-- C1: evaluation of the spec's concrete scenario on the code.  Starting
from CreateEmptySpectrum, the first append (5 samples, epoch 0, frequency
20) gives keys [20] as claimed, but the second append (5 samples, epoch 1,
frequency 10) takes the empty-container branch again — append never clears
_isempty — so the container ends with the single key [10], one row, and
epochs [1], not keys [10, 20] with two rows and epochs [1, 0] as the claim
states. -/
theorem C1_scenario_eval :
    (tfFold CreateEmptySpectrum [c1row1]).y = [20] ∧
    (tfFold CreateEmptySpectrum [c1row1, c1row2]).y = [10] ∧
    (tfFold CreateEmptySpectrum [c1row1, c1row2]).array.length = 1 ∧
    (tfFold CreateEmptySpectrum [c1row1, c1row2]).epoch = [1] := by decide

/-- C2: refuted on the code.  Appending to an empty MultiSeries assigns
_deltax and _array (lines 219-220) before the key type guard of lines
221-222 raises TypeError, so the failed call leaves the container in a
visibly different state from the pre-call snapshot, contradicting the
claim that an erroring append never commits any mutation. -/
theorem C2_state_mutated_on_error :
    (msEmptyDemo.append (.ser ⟨[1, 2], 1/2⟩) (.int 3)).2 = some PyErr.typeError ∧
    (msEmptyDemo.append (.ser ⟨[1, 2], 1/2⟩) (.int 3)).1 ≠ msEmptyDemo := by decide

/-- C3: refuted on the code.  The first-append type guard
not isinstance(y, np.int) or not isinstance(y, np.float)
is satisfied by every value, a real scalar key included (nothing is an int
and a float at once), so appending a valid row with the scalar key 7.0 to
an empty MultiSeries raises TypeError instead of succeeding, and the key
array is never set. -/
theorem C3_first_append_always_typeerror :
    (msEmptyDemo.append (.ser ⟨[4, 5, 6], 1⟩) (.float 7)).2 = some PyErr.typeError ∧
    (msEmptyDemo.append (.ser ⟨[4, 5, 6], 1⟩) (.float 7)).1.y = [] := by decide

/-- C4: evaluation of the code at the failing input.  The lockstep half of
the claim does hold — the append sequence exercising insert, replace and
append-at-end preserves the three-way invariant TFInv — but the iteration
half is false on the code: iterating the resulting non-empty spectrum
raises AttributeError at the first element (line 256 evaluates self._info,
an attribute never assigned in the MultiSeries hierarchy) instead of
yielding (frequency, row) pairs. -/
theorem C4_iter_attrerror :
    TFInv (tfFold c4start c4demo) ∧
    (tfFold c4start c4demo).iterRows = .error .attributeError :=
  ⟨tfFold_inv c4demo
      ⟨rfl, rfl, List.chain'_cons.mpr ⟨by norm_num, List.chain'_singleton _⟩, fun _ => by decide⟩,
   by decide⟩

/-- C5: evaluation of the code at the failing input.  Resampling a rate-10
TimeSeries to rate 20 raises AttributeError (the constructor argument
self.info names no existing attribute), instead of returning a rate-20
sequence with the old epoch; resampling to the current rate 10 does return
the identical instance. -/
theorem C5_resample_attrerror :
    TimeSeries.resample ⟨[1, 2, 3, 4, 5], 0, 1/10⟩ 20 = .raised .attributeError ∧
    TimeSeries.resample ⟨[1, 2, 3, 4, 5], 0, 1/10⟩ 10 = .same := by
  have hfs : TimeSeries.fs ⟨[1, 2, 3, 4, 5], 0, 1/10⟩ = 10 := by
    norm_num [TimeSeries.fs]
  unfold TimeSeries.resample
  rw [hfs, if_pos (by norm_num), if_neg (by norm_num)]
  exact ⟨rfl, rfl⟩

/-- C6 counterexample: a 2-D buffer of shape (1, 5) is not one-dimensional,
yet Series accepts it — the guard of line 12 is a conjunction, so a first
dimension of 1 bypasses the ShapeError the claim requires. -/
theorem C6_counterexample :
    Series.init ⟨[1, 5], [1, 2, 3, 4, 5]⟩ 1 = .ok ⟨[1, 2, 3, 4, 5], 1⟩ := by decide

/-- C6 amended: for every buffer with at least one dimension, construction
fails with ShapeError exactly when the buffer is not one-dimensional AND
its first dimension is not 1; in particular a 2-D buffer whose first
dimension is 1 is accepted. -/
theorem C6_shape_guard (v : NDArray) (dx : ℚ) (h : v.shape ≠ []) :
    Series.init v dx = .error .shapeError ↔
      v.shape.length ≠ 1 ∧ v.shape.headD 0 ≠ 1 := by
  unfold Series.init
  split
  · next hcond => exact iff_of_true rfl hcond
  · next hcond => exact iff_of_false (by simp) hcond

/-- Witness for C6 at a genuinely 2-D shape (2, 3). -/
theorem C6_witness :
    Series.init ⟨[2, 3], [1, 2, 3, 4, 5, 6]⟩ 1 = .error .shapeError :=
  (C6_shape_guard ⟨[2, 3], [1, 2, 3, 4, 5, 6]⟩ 1 (by decide)).mpr (by decide)

/-- C7 counterexample: slicing [5, 7, 9] with the one-element index array
[1] does not return the raw scalar 7; it returns the raw one-element array
[7] (self._value[index], unwrapped but still an array). -/
theorem C7_counterexample :
    Series.getsliceArr ⟨[5, 7, 9], 1⟩ [1] ≠ .ok (.scalarV 7) ∧
    Series.getsliceArr ⟨[5, 7, 9], 1⟩ [1] = .ok (.rawArr [7]) := by decide

/-- C7 amended: slicing with an explicit index array that selects exactly
one in-range element returns the raw one-element buffer holding that value
— unwrapped from the sequence type, but an array rather than a scalar. -/
theorem C7_single_index_raw (s : Series) (i : ℕ) (h : i < s.value.length) :
    s.getsliceArr [i] = .ok (.rawArr [s.value.getD i 0]) := by
  have hb : ∀ j ∈ [i], j < s.value.length := by simpa using h
  unfold Series.getsliceArr
  rw [if_neg (not_not_intro hb)]
  rfl

/-- Witness for C7. -/
theorem C7_witness :
    Series.getsliceArr ⟨[5, 7, 9], 1⟩ [2] = .ok (.rawArr [9]) := by
  simpa using C7_single_index_raw ⟨[5, 7, 9], 1⟩ 2 (by decide)

/-- C8: Series.resample returns the identical instance (not a copy) when
the requested spacing equals the current one, and otherwise delegates to
the external collaborator with rates 1/spacing and 1/new_spacing,
returning a fresh Series carrying the new spacing. -/
theorem C8_resample_contract (R : List ℚ → ℚ → ℚ → List ℚ) (s : Series) (nd : ℚ) :
    (nd = s.deltax → Series.resample R s nd = .same) ∧
    (nd ≠ s.deltax → Series.resample R s nd =
      .fresh ⟨R s.value (1 / s.deltax) (1 / nd), nd⟩) := by
  constructor
  · intro h; simp [Series.resample, h]
  · intro h; simp [Series.resample, h]

/-- Witness for C8: the no-op branch at spacing 1. -/
theorem C8_witness :
    Series.resample (fun v _ _ => v) ⟨[1, 2], 1⟩ 1 = .same :=
  (C8_resample_contract (fun v _ _ => v) ⟨[1, 2], 1⟩ 1).1 rfl

/-- C9: for every buffer and positive spacing, the Series length is
spacing * count, a contiguous slice with step s rescales the spacing to
spacing * s, and the concrete scenario holds: [1,2,3,4] at spacing 1/2
sliced with step 2 yields [1, 3] at spacing 1. -/
theorem C9_length_and_step (v : List ℚ) (d : ℚ) (hd : 0 < d) :
    (Series.mk v d).length = d * v.length ∧
    (∀ (start stop : Option ℕ) (k : ℕ), 1 ≤ k →
      (Series.getsliceSlice ⟨v, d⟩ start stop (some k)).deltax = d * k) ∧
    (Series.getsliceSlice ⟨[1, 2, 3, 4], 1/2⟩ none none (some 2)).value = [1, 3] ∧
    (Series.getsliceSlice ⟨[1, 2, 3, 4], 1/2⟩ none none (some 2)).deltax = 1 := by
  refine ⟨rfl, fun start stop k _ => rfl, by decide, ?_⟩
  show (1/2 : ℚ) * ((2 : ℕ) : ℚ) = 1
  norm_num

/-- Witness for C9: the concrete slicing scenario. -/
theorem C9_witness :
    (Series.getsliceSlice ⟨[1, 2, 3, 4], 1/2⟩ none none (some 2)).value = [1, 3] ∧
    (Series.getsliceSlice ⟨[1, 2, 3, 4], 1/2⟩ none none (some 2)).deltax = 1 :=
  ⟨(C9_length_and_step [1, 2, 3, 4] (1/2) (by norm_num)).2.2.1,
   (C9_length_and_step [1, 2, 3, 4] (1/2) (by norm_num)).2.2.2⟩

/-- C10: a spectrum produced by the empty-spectrum factory keeps its
_isempty flag set after any sequence of appends, so every successful
append takes the empty-container branch, leaving exactly one row, one key
and one epoch — those of that very append, whatever its frequency key. -/
theorem C10_append_keeps_empty_flag (args : List TFArg) (a : TFArg) :
    (tfFold CreateEmptySpectrum args).isempty = true ∧
    (((tfFold CreateEmptySpectrum args).append a).2 = none →
      ((tfFold CreateEmptySpectrum args).append a).1.array = [a.valueOf] ∧
      ((tfFold CreateEmptySpectrum args).append a).1.y = [a.freqOf] ∧
      ((tfFold CreateEmptySpectrum args).append a).1.epoch = [a.epochOf]) := by
  have h1 : (tfFold CreateEmptySpectrum args).isempty = true := by
    rw [tfFold_isempty]; rfl
  refine ⟨h1, ?_⟩
  intro hsucc
  cases a with
  | ts t freq =>
    simp only [TimeFreqSpectrum.append, TFArg.valueOf, TFArg.freqOf, TFArg.epochOf]
    rw [appendCore_of_empty h1]
    exact ⟨rfl, rfl, rfl⟩
  | arr v freq e fsOpt =>
    cases e with
    | none => exact absurd hsucc (by simp [TimeFreqSpectrum.append])
    | some e0 =>
      simp only [TimeFreqSpectrum.append, TFArg.valueOf, TFArg.freqOf, TFArg.epochOf]
      rw [appendCore_of_empty h1]
      exact ⟨rfl, rfl, rfl⟩

/-- Witness for C10: the first append to the factory spectrum lands as the
sole key. -/
theorem C10_witness :
    ((tfFold CreateEmptySpectrum []).append (.ts ⟨[1], 0, 1⟩ 5)).1.y = [5] := by
  simpa using ((C10_append_keeps_empty_flag [] (.ts ⟨[1], 0, 1⟩ 5)).2 (by decide)).2.1

end PyGWCoh
